import Mathlib

/-!
Verification of the VibeBot voice-call core (Call Lifecycle Manager,
Call Record Store, Inbound Access Policy) and of the LINE quick-reply
builder.

The quick-reply builder is embedded directly from
`src/line/quick-replies.ts`.  The Call Lifecycle Manager implementation
(`manager.ts`) is not part of the provided sources — only its test file
is — so the manager, store and policy below are modelled from the
specification (sections 3–4 of the spec), with each definition's doc
comment noting this.
-/

namespace VibeBot

/-- Call status, from the spec data model (section 3): `rejected` is a
pseudo-state that is never stored, so it is not a constructor here. -/
inductive CallStatus
  | initiated
  | ringing
  | answered
  | completed
  | failed
  deriving DecidableEq, Repr

/-- Call direction. -/
inductive Direction
  | inbound
  | outbound
  deriving DecidableEq, Repr

/-- Outbound call mode: `notify` speaks a message and ends, `interactive`
is bidirectional. -/
inductive CallMode
  | notify
  | interactive
  deriving DecidableEq, Repr

/-- Modelled from the spec: `CallRecord` (section 3).  `from`/`to` are
renamed `fromNum`/`toNum` because `from` is a Lean keyword. -/
structure CallRecord where
  callId : String
  providerCallId : String
  direction : Direction
  fromNum : String
  toNum : String
  status : CallStatus
  mode : Option CallMode
  initialMessage : Option String
  createdAt : Nat
  updatedAt : Nat
  deriving DecidableEq, Repr

/-- Inbound policy mode (`open` is a Lean keyword, hence `openMode`). -/
inductive PolicyMode
  | openMode
  | allowlist
  | blocklist
  deriving DecidableEq, Repr

/-- Modelled from the spec: the configuration consumed by the manager
(`fromNumber`, `inboundPolicy` and the number sets; section 3
`InboundPolicy`).  Entries are taken to be already normalized, since the
spec specifies exact-match comparison after normalization. -/
structure VoiceCallConfig where
  fromNumber : String
  inboundPolicy : PolicyMode
  allowFrom : List String
  blockFrom : List String
  deriving DecidableEq, Repr

/-- Normalized provider webhook event (spec section 6). -/
structure VoiceCallEvent where
  id : String
  type : String
  callId : Option String
  providerCallId : Option String
  direction : Option Direction
  fromNum : Option String
  toNum : Option String
  timestamp : Nat
  deriving DecidableEq, Repr

/-- A provider-side action dispatched by the manager as a side effect. -/
inductive ProviderAction
  | hangup (providerCallId : String) (reason : String)
  | playTts (providerCallId : String) (text : String)
  | startListening (providerCallId : String)
  deriving DecidableEq, Repr

/-- Modelled from the spec: the Call Record Store state plus the set of
already-processed event ids used for idempotent replay protection
(spec section 4.3 step 1). -/
structure ManagerState where
  records : List CallRecord
  processedEventIds : List String
  deriving DecidableEq, Repr

/-- Modelled from the spec: `getByCallId` / the manager surface
`getCall(callId)` — lookup in the call-id index. -/
def getCall (s : ManagerState) (cid : String) : Option CallRecord :=
  s.records.find? (fun r => r.callId == cid)

/-- Modelled from the spec: `getByProviderCallId` — lookup under the
current provider call id. -/
def getCallByProviderCallId (s : ManagerState) (pid : String) : Option CallRecord :=
  s.records.find? (fun r => r.providerCallId == pid)

/-- Modelled from the spec: the pure inbound access policy
`decide(policy, callerNumber)` (section 4.2): `open` always accepts,
`allowlist` accepts iff the caller is in the allow set, `blocklist`
rejects iff the caller is in the block set. -/
def decideInbound (cfg : VoiceCallConfig) (caller : String) : Bool :=
  match cfg.inboundPolicy with
  | .openMode => true
  | .allowlist => cfg.allowFrom.contains caller
  | .blocklist => !cfg.blockFrom.contains caller

/-- Modelled from the spec: status meaning of an event type
(section 4.3 step 4). -/
def statusOfEventType (t : String) : Option CallStatus :=
  if t = "call.ringing" then some .ringing
  else if t = "call.answered" then some .answered
  else if t = "call.completed" then some .completed
  else if t = "call.failed" then some .failed
  else none

/-- Position of a status along `initiated → ringing → answered →
{completed, failed}`; both terminal states share the top rank. -/
def statusRank : CallStatus → Nat
  | .initiated => 0
  | .ringing => 1
  | .answered => 2
  | .completed => 3
  | .failed => 3

/-- Modelled from the spec: monotonic status transition (section 3
invariants and section 4.3 step 4).  A status only moves forward along
the state machine; in particular nothing leaves a terminal state. -/
def applyTransition (cur : CallStatus) (t : String) : CallStatus :=
  match statusOfEventType t with
  | none => cur
  | some next => if statusRank cur < statusRank next then next else cur

/-- Modelled from the spec: steps 3, 4 and 6 of `processEvent` applied to
the resolved record — identity reconciliation, status transition and
`updatedAt` refresh. -/
def applyEventToRecord (r : CallRecord) (e : VoiceCallEvent) : CallRecord :=
  { r with
    providerCallId :=
      match e.providerCallId with
      | some pid => pid
      | none => r.providerCallId
    status := applyTransition r.status e.type
    updatedAt := e.timestamp }

/-- Modelled from the spec: the side effects dispatched on a transition to
`answered` (section 4.3 step 5). -/
def answeredActions (r : CallRecord) : List ProviderAction :=
  match r.mode with
  | some .notify =>
    match r.initialMessage with
    | some msg => [.playTts r.providerCallId msg]
    | none => []
  | some .interactive => [.startListening r.providerCallId]
  | none => []

/-- Actions produced when a record moves from `old` to `updated`. -/
def eventActions (old updated : CallRecord) : List ProviderAction :=
  if updated.status = .answered ∧ old.status ≠ .answered then
    answeredActions updated
  else []

/-- Record the event id as processed. -/
def markProcessed (s : ManagerState) (eid : String) : ManagerState :=
  { s with processedEventIds := eid :: s.processedEventIds }

/-- Replace the record stored under `cid` by `updated`, leaving the
call-id index untouched (the store's `put` / `reindexProviderCallId`). -/
def updateRecords (records : List CallRecord) (cid : String)
    (updated : CallRecord) : List CallRecord :=
  records.map (fun x => if x.callId == cid then updated else x)

/-- Modelled from the spec: record resolution (section 4.3 step 2): a
known `callId` wins, otherwise lookup by `providerCallId`. -/
def resolveRecord (s : ManagerState) (e : VoiceCallEvent) : Option CallRecord :=
  (e.callId.bind (getCall s)).or (e.providerCallId.bind (getCallByProviderCallId s))

/-- Modelled from the spec: the CallRecord created when a new inbound
call passes policy (section 4.3 step 2): `status = ringing`,
`direction = inbound`, fields from the event; the fresh internal call id
is supplied by the caller (the system generates it). -/
def newInboundRecord (freshId pid : String) (e : VoiceCallEvent) : CallRecord :=
  { callId := freshId
    providerCallId := pid
    direction := .inbound
    fromNum := e.fromNum.getD ""
    toNum := e.toNum.getD ""
    status := .ringing
    mode := none
    initialMessage := none
    createdAt := e.timestamp
    updatedAt := e.timestamp }

/-- Modelled from the spec: `processEvent` (section 4.3), the heart of the
manager.  `freshId` stands for the internally generated call id used if a
new inbound record is created.  Dispatched provider actions are returned
alongside the new state.  Algorithm: (1) deduplicate by event id; (2)
resolve the target record, with the new-inbound policy path when nothing
resolves and the event is an inbound `call.ringing`; (3–6) reconcile the
provider id, transition status, dispatch `answered` side effects and
refresh `updatedAt`. -/
def processEvent (cfg : VoiceCallConfig) (freshId : String)
    (s : ManagerState) (e : VoiceCallEvent) :
    ManagerState × List ProviderAction :=
  if e.id ∈ s.processedEventIds then (s, [])
  else
    let s0 := markProcessed s e.id
    match resolveRecord s e with
    | some r =>
      let updated := applyEventToRecord r e
      ({ s0 with records := updateRecords s0.records r.callId updated },
       eventActions r updated)
    | none =>
      if e.type = "call.ringing" ∧ e.direction = some .inbound then
        match e.providerCallId with
        | some pid =>
          if decideInbound cfg (e.fromNum.getD "") then
            ({ s0 with records := s0.records ++ [newInboundRecord freshId pid e] }, [])
          else
            (s0, [.hangup pid "hangup-bot"])
        | none => (s0, [])
      else (s0, [])

/-- Options accepted by `initiateCall` for notify-mode calls. -/
structure CallOptions where
  message : Option String := none
  mode : Option CallMode := none
  deriving DecidableEq, Repr

/-- Outcome of the provider's synchronous placement call
(`initiateCall` on the Provider Abstraction, spec section 6). -/
inductive PlacementOutcome
  | ok (providerCallId : String) (status : CallStatus)
  | err (message : String)
  deriving DecidableEq, Repr

/-- Result shape of the manager's `initiateCall` (spec section 4.3). -/
structure InitiateResult where
  callId : String
  success : Bool
  providerCallId : Option String
  status : Option CallStatus
  error : Option String
  deriving DecidableEq, Repr

/-- Modelled from the spec: the manager's `initiateCall` (section 4.3).
`newCallId` stands for the freshly generated internal call id and
`placement` for the provider's synchronous placement outcome.  On success
a record with `status = initiated` and the provider-returned
`providerCallId` is stored; on failure `success = false`, `error` carries
the reason and no record is created. -/
def initiateCall (cfg : VoiceCallConfig) (s : ManagerState)
    (newCallId toNumber : String) (fromOverride : Option String)
    (opts : Option CallOptions) (placement : PlacementOutcome) (now : Nat) :
    ManagerState × InitiateResult :=
  match placement with
  | .err msg =>
    (s, { callId := newCallId, success := false, providerCallId := none,
          status := none, error := some msg })
  | .ok pid pst =>
    let record : CallRecord :=
      { callId := newCallId
        providerCallId := pid
        direction := .outbound
        fromNum := fromOverride.getD cfg.fromNumber
        toNum := toNumber
        status := .initiated
        mode := opts.bind (·.mode)
        initialMessage := opts.bind (·.message)
        createdAt := now
        updatedAt := now }
    ({ s with records := s.records ++ [record] },
     { callId := newCallId, success := true, providerCallId := some pid,
       status := some pst, error := none })

/-! ### Basic lemmas about the store and the manager -/

/-- A record returned by `getCall` carries the looked-up call id. -/
theorem getCall_callId {s : ManagerState} {cid : String} {r : CallRecord}
    (h : getCall s cid = some r) : r.callId = cid := by
  have := List.find?_some h
  simpa using this

/-- A record returned by `getCallByProviderCallId` carries the looked-up
provider call id. -/
theorem getByPid_pid {s : ManagerState} {pid : String} {r : CallRecord}
    (h : getCallByProviderCallId s pid = some r) : r.providerCallId = pid := by
  have := List.find?_some h
  simpa using this

/-- `getCall` only returns stored records. -/
theorem getCall_mem {s : ManagerState} {cid : String} {r : CallRecord}
    (h : getCall s cid = some r) : r ∈ s.records :=
  List.mem_of_find?_eq_some h

/-- `getCallByProviderCallId` only returns stored records. -/
theorem getByPid_mem {s : ManagerState} {pid : String} {r : CallRecord}
    (h : getCallByProviderCallId s pid = some r) : r ∈ s.records :=
  List.mem_of_find?_eq_some h

/-- Record resolution only returns stored records. -/
theorem resolveRecord_mem {s : ManagerState} {e : VoiceCallEvent} {r : CallRecord}
    (h : resolveRecord s e = some r) : r ∈ s.records := by
  unfold resolveRecord at h
  rcases Option.or_eq_some.mp h with h1 | ⟨-, h1⟩
  · obtain ⟨cid, _, hg⟩ := Option.bind_eq_some.mp h1
    exact getCall_mem hg
  · obtain ⟨pid, _, hg⟩ := Option.bind_eq_some.mp h1
    exact getByPid_mem hg

/-- A terminal status is a fixpoint of every transition. -/
theorem applyTransition_terminal {st : CallStatus} (t : String)
    (h : st = .completed ∨ st = .failed) : applyTransition st t = st := by
  unfold applyTransition
  cases hty : statusOfEventType t with
  | none => rfl
  | some nx => rcases h with h | h <;> subst h <;> cases nx <;> simp [statusRank]

/-- `updateRecords` keyed consistently leaves the call-id index pointwise
related to the original one. -/
theorem find?_updateRecords_callId (l : List CallRecord) (cid c : String)
    (updated : CallRecord) (hu : updated.callId = cid) :
    (updateRecords l cid updated).find? (fun r => r.callId == c) =
      (l.find? (fun r => r.callId == c)).map
        (fun x => if x.callId == cid then updated else x) := by
  unfold updateRecords
  rw [List.find?_map]
  have hp : ((fun r => r.callId == c) ∘ fun x => if x.callId == cid then updated else x) =
      (fun r : CallRecord => r.callId == c) := by
    funext x
    by_cases h : x.callId == cid
    · have hx : x.callId = cid := by simpa using h
      simp [Function.comp, h, hu, hx]
    · simp [Function.comp, h]
  rw [hp]

/-- After an update installing a fresh provider id, that id resolves to the
updated record. -/
theorem find?_updateRecords_pid_some (l : List CallRecord) (cid newPid : String)
    (updated r : CallRecord)
    (hfind : l.find? (fun x => x.callId == cid) = some r)
    (hnone : ∀ x ∈ l, x.providerCallId ≠ newPid)
    (hup : updated.providerCallId = newPid) :
    (updateRecords l cid updated).find? (fun x => x.providerCallId == newPid) =
      some updated := by
  induction l with
  | nil => simp at hfind
  | cons a t ih =>
    by_cases h : a.callId == cid
    · have hx : a.callId = cid := by simpa using h
      rw [show updateRecords (a :: t) cid updated = updated :: updateRecords t cid updated by
        simp [updateRecords, hx]]
      rw [List.find?_cons_of_pos _ (by simp [hup])]
    · have hx : a.callId ≠ cid := by simpa using h
      simp only [List.find?_cons, h] at hfind
      have ha : a.providerCallId ≠ newPid := hnone a (by simp)
      rw [show updateRecords (a :: t) cid updated = a :: updateRecords t cid updated by
        simp [updateRecords, hx]]
      rw [List.find?_cons_of_neg _ (by simp [ha])]
      exact ih hfind (fun x hx => hnone x (List.mem_cons_of_mem _ hx))

/-- After an update moving the record away from `oldPid`, the old provider
id resolves to nothing, provided only cid-records could own it. -/
theorem find?_updateRecords_pid_none (l : List CallRecord) (cid oldPid : String)
    (updated : CallRecord)
    (hshadow : ∀ x ∈ l, x.providerCallId = oldPid → x.callId = cid)
    (hup : updated.providerCallId ≠ oldPid) :
    (updateRecords l cid updated).find? (fun x => x.providerCallId == oldPid) =
      none := by
  rw [List.find?_eq_none]
  intro y hy
  simp only [updateRecords, List.mem_map] at hy
  obtain ⟨x, hx, rfl⟩ := hy
  by_cases h : x.callId == cid
  · simp [h, hup]
  · have h' : x.callId ≠ cid := by simpa using h
    simp only [beq_iff_eq, if_neg h']
    intro hcontra
    exact h' (hshadow x hx hcontra)

/-- Searching an appended singleton when the original list has no match. -/
theorem find?_append_singleton {α : Type} (p : α → Bool) (l : List α) (a : α)
    (h : l.find? p = none) (ha : p a = true) :
    (l ++ [a]).find? p = some a := by
  rw [List.find?_append, h, List.find?_cons_of_pos _ ha]
  rfl

/-- A duplicated event id is dropped: no state change, no actions. -/
theorem processEvent_dup (cfg : VoiceCallConfig) (freshId : String)
    (s : ManagerState) (e : VoiceCallEvent) (h : e.id ∈ s.processedEventIds) :
    processEvent cfg freshId s e = (s, []) := by
  simp [processEvent, h]

/-- Shape of `processEvent` when a record resolves. -/
theorem processEvent_found (cfg : VoiceCallConfig) (freshId : String)
    (s : ManagerState) (e : VoiceCallEvent) (r : CallRecord)
    (hfresh : e.id ∉ s.processedEventIds)
    (hres : resolveRecord s e = some r) :
    processEvent cfg freshId s e =
      ({ records := updateRecords s.records r.callId (applyEventToRecord r e),
         processedEventIds := e.id :: s.processedEventIds },
       eventActions r (applyEventToRecord r e)) := by
  simp [processEvent, hfresh, hres, markProcessed]

/-- Shape of `processEvent` on a policy-rejected new inbound call. -/
theorem processEvent_reject (cfg : VoiceCallConfig) (freshId : String)
    (s : ManagerState) (e : VoiceCallEvent) (pid : String)
    (hfresh : e.id ∉ s.processedEventIds)
    (hres : resolveRecord s e = none)
    (htype : e.type = "call.ringing")
    (hdir : e.direction = some .inbound)
    (hpid : e.providerCallId = some pid)
    (hdec : decideInbound cfg (e.fromNum.getD "") = false) :
    processEvent cfg freshId s e =
      ({ records := s.records, processedEventIds := e.id :: s.processedEventIds },
       [.hangup pid "hangup-bot"]) := by
  simp [processEvent, hfresh, hres, htype, hdir, hpid, hdec, markProcessed]

/-- Shape of `processEvent` on a policy-accepted new inbound call. -/
theorem processEvent_accept (cfg : VoiceCallConfig) (freshId : String)
    (s : ManagerState) (e : VoiceCallEvent) (pid : String)
    (hfresh : e.id ∉ s.processedEventIds)
    (hres : resolveRecord s e = none)
    (htype : e.type = "call.ringing")
    (hdir : e.direction = some .inbound)
    (hpid : e.providerCallId = some pid)
    (hdec : decideInbound cfg (e.fromNum.getD "") = true) :
    processEvent cfg freshId s e =
      ({ records := s.records ++ [newInboundRecord freshId pid e],
         processedEventIds := e.id :: s.processedEventIds },
       []) := by
  simp [processEvent, hfresh, hres, htype, hdir, hpid, hdec, markProcessed]

/-- After any `processEvent`, the event id is recorded as processed. -/
theorem processEvent_mem_processed (cfg : VoiceCallConfig) (freshId : String)
    (s : ManagerState) (e : VoiceCallEvent) :
    e.id ∈ ((processEvent cfg freshId s e).1).processedEventIds := by
  by_cases h : e.id ∈ s.processedEventIds
  · rw [processEvent_dup cfg freshId s e h]
    exact h
  · unfold processEvent
    rw [if_neg h]
    cases hres : resolveRecord s e with
    | some r => simp [markProcessed]
    | none =>
      simp only
      split
      · split
        · split <;> simp [markProcessed]
        · simp [markProcessed]
      · simp [markProcessed]

/-! ### Claim theorems for the Call Lifecycle Manager -/

/-- Claim C1: if `processEvent` is given a fresh event carrying a known
`callId` together with a `providerCallId` different from the record's
current one (and not currently owned by any record), then afterwards the
old provider id resolves to not-found, the new provider id resolves to
the record with the original `callId`, and `getCall callId` shows the new
provider id.  Lookups are pure functions of the resulting state, so this
holds for every subsequent lookup of that state. -/
theorem processEvent_identity_upgrade
    (cfg : VoiceCallConfig) (freshId : String) (s : ManagerState)
    (e : VoiceCallEvent) (cid newPid : String) (r : CallRecord)
    (hfresh : e.id ∉ s.processedEventIds)
    (hcid : e.callId = some cid)
    (hget : getCall s cid = some r)
    (hpid : e.providerCallId = some newPid)
    (hne : newPid ≠ r.providerCallId)
    (hold : ∀ x ∈ s.records, x.providerCallId = r.providerCallId → x.callId = cid)
    (hnew : getCallByProviderCallId s newPid = none) :
    getCallByProviderCallId (processEvent cfg freshId s e).1 r.providerCallId = none ∧
    (∃ r', getCallByProviderCallId (processEvent cfg freshId s e).1 newPid = some r' ∧
      r'.callId = cid) ∧
    (∃ r'', getCall (processEvent cfg freshId s e).1 cid = some r'' ∧
      r''.providerCallId = newPid) := by
  have hrcid : r.callId = cid := getCall_callId hget
  have hres : resolveRecord s e = some r := by
    simp [resolveRecord, hcid, hget, Option.or]
  have heq := processEvent_found cfg freshId s e r hfresh hres
  have hup_pid : (applyEventToRecord r e).providerCallId = newPid := by
    simp [applyEventToRecord, hpid]
  have hup_cid : (applyEventToRecord r e).callId = r.callId := by
    simp [applyEventToRecord]
  rw [heq]
  refine ⟨?_, ?_, ?_⟩
  · exact find?_updateRecords_pid_none s.records r.callId r.providerCallId _
      (fun x hx hpx => (hold x hx hpx).trans hrcid.symm)
      (by rw [hup_pid]; exact hne)
  · have hnone : ∀ x ∈ s.records, x.providerCallId ≠ newPid := by
      intro x hx
      have := List.find?_eq_none.mp hnew x hx
      simpa using this
    have hfind : s.records.find? (fun x => x.callId == r.callId) = some r := by
      rw [hrcid]; exact hget
    exact ⟨applyEventToRecord r e,
      find?_updateRecords_pid_some s.records r.callId newPid _ r hfind hnone hup_pid,
      hup_cid.trans hrcid⟩
  · refine ⟨applyEventToRecord r e, ?_, hup_pid⟩
    show (updateRecords s.records r.callId (applyEventToRecord r e)).find?
      (fun x => x.callId == cid) = _
    rw [find?_updateRecords_callId s.records r.callId cid _ hup_cid]
    rw [show s.records.find? (fun x => x.callId == cid) = some r from hget]
    simp

/-- Claim C6: `processEvent` is idempotent in the event id — replaying an
event directly after it has been processed leaves the state unchanged and
dispatches no further actions. -/
theorem processEvent_idempotent (cfg : VoiceCallConfig) (freshId : String)
    (s : ManagerState) (e : VoiceCallEvent) :
    processEvent cfg freshId ((processEvent cfg freshId s e).1) e =
      ((processEvent cfg freshId s e).1, []) :=
  processEvent_dup cfg freshId _ e (processEvent_mem_processed cfg freshId s e)

/-- Claim C7: once a record's status is terminal (`completed` or
`failed`), no subsequently processed event changes it: the status only
moves forward along `initiated → ringing → answered → {completed,
failed}` and never leaves a terminal state. -/
theorem terminal_status_preserved
    (cfg : VoiceCallConfig) (freshId : String) (s : ManagerState)
    (e : VoiceCallEvent) (cid : String) (r : CallRecord)
    (hget : getCall s cid = some r)
    (huniq : ∀ x ∈ s.records, x.callId = cid → x = r)
    (hterm : r.status = .completed ∨ r.status = .failed) :
    ∃ r', getCall (processEvent cfg freshId s e).1 cid = some r' ∧
      r'.status = r.status := by
  by_cases hdup : e.id ∈ s.processedEventIds
  · rw [processEvent_dup cfg freshId s e hdup]
    exact ⟨r, hget, rfl⟩
  cases hres : resolveRecord s e with
  | some r0 =>
    have heq := processEvent_found cfg freshId s e r0 hdup hres
    rw [heq]
    have hu : (applyEventToRecord r0 e).callId = r0.callId := by
      simp [applyEventToRecord]
    show ∃ r', (updateRecords s.records r0.callId (applyEventToRecord r0 e)).find?
      (fun x => x.callId == cid) = some r' ∧ r'.status = r.status
    rw [find?_updateRecords_callId s.records r0.callId cid _ hu]
    rw [show s.records.find? (fun x => x.callId == cid) = some r from hget]
    rw [Option.map_some']
    by_cases hcc : r.callId == r0.callId
    · have hcc' : r.callId = r0.callId := by simpa using hcc
      have hr0cid : r0.callId = cid := by
        rw [← hcc']; exact getCall_callId hget
      have hr0 : r0 = r := huniq r0 (resolveRecord_mem hres) hr0cid
      subst hr0
      refine ⟨applyEventToRecord r0 e, by simp [hcc], ?_⟩
      simp [applyEventToRecord, applyTransition_terminal _ hterm]
    · exact ⟨r, by simp [hcc], rfl⟩
  | none =>
    unfold processEvent
    rw [if_neg hdup, hres]
    simp only
    split
    · split
      · split
        · refine ⟨r, ?_, rfl⟩
          show ((markProcessed s e.id).records ++ _).find? (fun x => x.callId == cid) = some r
          rw [show (markProcessed s e.id).records = s.records from rfl]
          rw [List.find?_append, show s.records.find? (fun x => x.callId == cid) = some r from hget]
          rfl
        · exact ⟨r, hget, rfl⟩
      · exact ⟨r, hget, rfl⟩
    · exact ⟨r, hget, rfl⟩

/-- Claim C8: when the provider's placement call fails, `initiateCall`
reports `success = false` with the error, and the store is unchanged —
no record is created. -/
theorem initiateCall_failure_no_record
    (cfg : VoiceCallConfig) (s : ManagerState) (newCallId toNumber : String)
    (fromOverride : Option String) (opts : Option CallOptions)
    (msg : String) (now : Nat) :
    initiateCall cfg s newCallId toNumber fromOverride opts (.err msg) now =
      (s, { callId := newCallId, success := false, providerCallId := none,
            status := none, error := some msg }) := rfl

/-- If nothing resolves and the event carries a provider id, that id is
unknown to the store. -/
theorem resolveRecord_none_pid {s : ManagerState} {e : VoiceCallEvent} {pid : String}
    (hres : resolveRecord s e = none) (hpid : e.providerCallId = some pid) :
    getCallByProviderCallId s pid = none := by
  unfold resolveRecord at hres
  rw [hpid] at hres
  cases hc : e.callId.bind (getCall s) with
  | some r => rw [hc] at hres; simp [Option.or] at hres
  | none => rw [hc] at hres; simpa [Option.or] using hres

/-- Claim C2: a fresh inbound `ringing` event from a number outside the
configured allowlist dispatches exactly one hangup with reason
`"hangup-bot"` for the event's provider call id, creates no record, and
that provider id still resolves to not-found afterwards. -/
theorem processEvent_inbound_rejected
    (cfg : VoiceCallConfig) (freshId : String) (s : ManagerState)
    (e : VoiceCallEvent) (pid f : String)
    (hfresh : e.id ∉ s.processedEventIds)
    (hres : resolveRecord s e = none)
    (htype : e.type = "call.ringing")
    (hdir : e.direction = some .inbound)
    (hpid : e.providerCallId = some pid)
    (hfrom : e.fromNum = some f)
    (hmode : cfg.inboundPolicy = .allowlist)
    (hnot : f ∉ cfg.allowFrom) :
    processEvent cfg freshId s e =
      ({ records := s.records, processedEventIds := e.id :: s.processedEventIds },
       [.hangup pid "hangup-bot"]) ∧
    getCallByProviderCallId (processEvent cfg freshId s e).1 pid = none := by
  have hdec : decideInbound cfg (e.fromNum.getD "") = false := by
    simp [decideInbound, hmode, hfrom, hnot]
  have heq := processEvent_reject cfg freshId s e pid hfresh hres htype hdir hpid hdec
  refine ⟨heq, ?_⟩
  rw [heq]
  exact resolveRecord_none_pid hres hpid

/-- Claim C3: a fresh inbound `ringing` event from a number in the
configured allowlist dispatches no action, and creates a record
retrievable under the event's provider call id whose `from` field equals
the event's `from`. -/
theorem processEvent_inbound_accepted
    (cfg : VoiceCallConfig) (freshId : String) (s : ManagerState)
    (e : VoiceCallEvent) (pid f : String)
    (hfresh : e.id ∉ s.processedEventIds)
    (hres : resolveRecord s e = none)
    (htype : e.type = "call.ringing")
    (hdir : e.direction = some .inbound)
    (hpid : e.providerCallId = some pid)
    (hfrom : e.fromNum = some f)
    (hmode : cfg.inboundPolicy = .allowlist)
    (hin : f ∈ cfg.allowFrom) :
    (processEvent cfg freshId s e).2 = [] ∧
    ∃ r, getCallByProviderCallId (processEvent cfg freshId s e).1 pid = some r ∧
      r.fromNum = f := by
  have hdec : decideInbound cfg (e.fromNum.getD "") = true := by
    simp [decideInbound, hmode, hfrom, hin]
  have heq := processEvent_accept cfg freshId s e pid hfresh hres htype hdir hpid hdec
  rw [heq]
  refine ⟨rfl, newInboundRecord freshId pid e, ?_, by simp [newInboundRecord, hfrom]⟩
  show (s.records ++ [newInboundRecord freshId pid e]).find?
    (fun x => x.providerCallId == pid) = _
  exact find?_append_singleton _ _ _ (resolveRecord_none_pid hres hpid)
    (by simp [newInboundRecord])

/-- Claim C4: a successful `initiateCall` creates a record whose
`providerCallId` is the id the provider returned at placement time, with
`status = initiated`, and both lookup paths resolve to that record. -/
theorem initiateCall_success_indices
    (cfg : VoiceCallConfig) (s : ManagerState) (newCallId toNumber : String)
    (fromOverride : Option String) (opts : Option CallOptions)
    (pid : String) (pst : CallStatus) (now : Nat)
    (hcid : getCall s newCallId = none)
    (hpid : getCallByProviderCallId s pid = none) :
    (initiateCall cfg s newCallId toNumber fromOverride opts (.ok pid pst) now).2.success
      = true ∧
    ∃ r, getCall (initiateCall cfg s newCallId toNumber fromOverride opts
        (.ok pid pst) now).1 newCallId = some r ∧
      r.callId = newCallId ∧ r.providerCallId = pid ∧ r.status = .initiated ∧
      getCallByProviderCallId (initiateCall cfg s newCallId toNumber fromOverride opts
        (.ok pid pst) now).1 pid = some r := by
  refine ⟨rfl, ?_⟩
  refine ⟨{ callId := newCallId, providerCallId := pid, direction := .outbound,
            fromNum := fromOverride.getD cfg.fromNumber, toNum := toNumber,
            status := .initiated, mode := opts.bind (·.mode),
            initialMessage := opts.bind (·.message), createdAt := now,
            updatedAt := now }, ?_, rfl, rfl, rfl, ?_⟩
  · show (s.records ++ [_]).find? (fun x : CallRecord => x.callId == newCallId) = _
    exact find?_append_singleton _ _ _ hcid (by simp)
  · show (s.records ++ [_]).find? (fun x : CallRecord => x.providerCallId == pid) = _
    exact find?_append_singleton _ _ _ hpid (by simp)

/-- Claim C5: when a fresh `call.answered` event moves a notify-mode
record with a set (non-empty) initial message into `answered`, exactly
one `playTts` action is dispatched and its text is exactly that message.
The event may resolve the record through its `callId`, through its
`providerCallId` alone, or carry no `providerCallId` at all; the speech
is addressed to the record's current provider id after reconciliation. -/
theorem processEvent_notify_speaks_once
    (cfg : VoiceCallConfig) (freshId : String) (s : ManagerState)
    (e : VoiceCallEvent) (m : String) (r : CallRecord)
    (hfresh : e.id ∉ s.processedEventIds)
    (hres : resolveRecord s e = some r)
    (htype : e.type = "call.answered")
    (_hdir : r.direction = .outbound)
    (hmode : r.mode = some .notify)
    (hmsg : r.initialMessage = some m)
    (_hm : m ≠ "")
    (hstatus : r.status = .initiated ∨ r.status = .ringing) :
    (processEvent cfg freshId s e).2 =
      [.playTts (e.providerCallId.getD r.providerCallId) m] := by
  have heq := processEvent_found cfg freshId s e r hfresh hres
  rw [heq]
  have hnext : statusOfEventType e.type = some .answered := by
    rw [htype]; decide
  have hstat : (applyEventToRecord r e).status = .answered := by
    rcases hstatus with h | h <;>
      simp [applyEventToRecord, applyTransition, hnext, h, statusRank]
  have hne : r.status ≠ .answered := by
    rcases hstatus with h | h <;> simp [h]
  show eventActions r (applyEventToRecord r e) = _
  rw [show eventActions r (applyEventToRecord r e) =
      answeredActions (applyEventToRecord r e) by simp [eventActions, hstat, hne]]
  have h1 : (applyEventToRecord r e).mode = some .notify := by
    simp [applyEventToRecord, hmode]
  have h2 : (applyEventToRecord r e).initialMessage = some m := by
    simp [applyEventToRecord, hmsg]
  have h3 : (applyEventToRecord r e).providerCallId =
      e.providerCallId.getD r.providerCallId := by
    cases hp : e.providerCallId <;> simp [applyEventToRecord, hp]
  simp [answeredActions, h1, h2, h3]

/-- Claim C9: an inbound `ringing` event whose `callId` is unknown to the
store is not dropped: `processEvent` treats it exactly as if the event
had carried no `callId`, falling through to provider-id lookup and the
new-inbound policy path. -/
theorem processEvent_unknown_callId_falls_through
    (cfg : VoiceCallConfig) (freshId : String) (s : ManagerState)
    (e : VoiceCallEvent) (c : String)
    (hcid : e.callId = some c)
    (hunknown : getCall s c = none)
    (_htype : e.type = "call.ringing")
    (_hdir : e.direction = some .inbound) :
    processEvent cfg freshId s e =
      processEvent cfg freshId s { e with callId := none } := by
  have h1 : resolveRecord s e = resolveRecord s { e with callId := none } := by
    simp [resolveRecord, hcid, hunknown]
  unfold processEvent
  rw [h1]
  rfl

/-! ### Concrete witnesses

Sample data mirrors the fixtures of the repository's CallManager test
file (fake provider returning `"request-uuid"`, allowlist
`["+15551234567"]`). -/

/-- Allowlist configuration used by the witnesses. -/
def wConfig : VoiceCallConfig :=
  { fromNumber := "+15550000000", inboundPolicy := .allowlist,
    allowFrom := ["+15551234567"], blockFrom := [] }

/-- Empty store. -/
def wEmpty : ManagerState := { records := [], processedEventIds := [] }

/-- An outbound record still carrying the placement-time provider id. -/
def wOutRecord : CallRecord :=
  { callId := "call-1", providerCallId := "request-uuid", direction := .outbound,
    fromNum := "+15550000000", toNum := "+15550000001", status := .initiated,
    mode := none, initialMessage := none, createdAt := 0, updatedAt := 0 }

/-- Store holding just `wOutRecord`. -/
def wOutState : ManagerState := { records := [wOutRecord], processedEventIds := [] }

/-- The answered event that upgrades the provider id. -/
def wAnswerEvent : VoiceCallEvent :=
  { id := "evt-1", type := "call.answered", callId := some "call-1",
    providerCallId := some "call-uuid", direction := none, fromNum := none,
    toNum := none, timestamp := 5 }

/-- Concrete identity-upgrade run: after the `call.answered` event with the
new provider id, only the new id resolves. -/
theorem processEvent_identity_upgrade_witness :
    getCallByProviderCallId (processEvent wConfig "f1" wOutState wAnswerEvent).1
      "request-uuid" = none ∧
    (∃ r', getCallByProviderCallId (processEvent wConfig "f1" wOutState wAnswerEvent).1
      "call-uuid" = some r' ∧ r'.callId = "call-1") ∧
    (∃ r'', getCall (processEvent wConfig "f1" wOutState wAnswerEvent).1
      "call-1" = some r'' ∧ r''.providerCallId = "call-uuid") :=
  processEvent_identity_upgrade wConfig "f1" wOutState wAnswerEvent "call-1" "call-uuid"
    wOutRecord (by decide) rfl (by decide) rfl (by decide) (by decide) (by decide)

/-- Inbound ringing event from a number outside the allowlist. -/
def wRejEvent : VoiceCallEvent :=
  { id := "evt-inbound-rejected", type := "call.ringing",
    callId := some "inbound-call-id", providerCallId := some "provider-call-123",
    direction := some .inbound, fromNum := some "+15559999999",
    toNum := some "+15550000000", timestamp := 9 }

/-- Concrete rejected-inbound run: one hangup, no record. -/
theorem processEvent_inbound_rejected_witness :
    processEvent wConfig "f2" wEmpty wRejEvent =
      ({ records := [], processedEventIds := ["evt-inbound-rejected"] },
       [.hangup "provider-call-123" "hangup-bot"]) ∧
    getCallByProviderCallId (processEvent wConfig "f2" wEmpty wRejEvent).1
      "provider-call-123" = none :=
  processEvent_inbound_rejected wConfig "f2" wEmpty wRejEvent "provider-call-123"
    "+15559999999" (by decide) (by decide) rfl rfl rfl rfl rfl (by decide)

/-- Inbound ringing event from a number in the allowlist. -/
def wAccEvent : VoiceCallEvent :=
  { id := "evt-inbound-accepted", type := "call.ringing",
    callId := some "inbound-call-id-2", providerCallId := some "provider-call-456",
    direction := some .inbound, fromNum := some "+15551234567",
    toNum := some "+15550000000", timestamp := 11 }

/-- Concrete accepted-inbound run: no hangup, record stored with the
caller's number. -/
theorem processEvent_inbound_accepted_witness :
    (processEvent wConfig "inb-1" wEmpty wAccEvent).2 = [] ∧
    ∃ r, getCallByProviderCallId (processEvent wConfig "inb-1" wEmpty wAccEvent).1
      "provider-call-456" = some r ∧ r.fromNum = "+15551234567" :=
  processEvent_inbound_accepted wConfig "inb-1" wEmpty wAccEvent "provider-call-456"
    "+15551234567" (by decide) (by decide) rfl rfl rfl rfl rfl (by decide)

/-- Concrete successful placement: both indices resolve to the new record
with the provider-returned id. -/
theorem initiateCall_success_indices_witness :
    (initiateCall wConfig wEmpty "call-1" "+15550000001" none none
      (.ok "request-uuid" .initiated) 0).2.success = true ∧
    ∃ r, getCall (initiateCall wConfig wEmpty "call-1" "+15550000001" none none
        (.ok "request-uuid" .initiated) 0).1 "call-1" = some r ∧
      r.callId = "call-1" ∧ r.providerCallId = "request-uuid" ∧
      r.status = .initiated ∧
      getCallByProviderCallId (initiateCall wConfig wEmpty "call-1" "+15550000001"
        none none (.ok "request-uuid" .initiated) 0).1 "request-uuid" = some r :=
  initiateCall_success_indices wConfig wEmpty "call-1" "+15550000001" none none
    "request-uuid" .initiated 0 (by decide) (by decide)

/-- A notify-mode outbound record awaiting answer. -/
def wNotifyRecord : CallRecord :=
  { callId := "call-2", providerCallId := "request-uuid", direction := .outbound,
    fromNum := "+15550000000", toNum := "+15550000002", status := .initiated,
    mode := some .notify, initialMessage := some "Hello there",
    createdAt := 0, updatedAt := 0 }

/-- Store holding just `wNotifyRecord`. -/
def wNotifyState : ManagerState :=
  { records := [wNotifyRecord], processedEventIds := [] }

/-- The answered event for the notify-mode call: it carries only a
`providerCallId`, the common shape the spec calls out, so the record is
resolved through the provider-id index. -/
def wAnswerEvent2 : VoiceCallEvent :=
  { id := "evt-2", type := "call.answered", callId := none,
    providerCallId := some "request-uuid", direction := none, fromNum := none,
    toNum := none, timestamp := 7 }

/-- Concrete notify run on a provider-id-only answered event: exactly one
`playTts` with the exact message. -/
theorem processEvent_notify_speaks_once_witness :
    (processEvent wConfig "f5" wNotifyState wAnswerEvent2).2 =
      [.playTts "request-uuid" "Hello there"] :=
  processEvent_notify_speaks_once wConfig "f5" wNotifyState wAnswerEvent2
    "Hello there" wNotifyRecord (by decide) (by decide) rfl rfl rfl rfl
    (by decide) (Or.inl rfl)

/-- A record already in the terminal `completed` state. -/
def wTermRecord : CallRecord :=
  { callId := "call-7", providerCallId := "pid-7", direction := .outbound,
    fromNum := "+15550000000", toNum := "+15550000003", status := .completed,
    mode := none, initialMessage := none, createdAt := 0, updatedAt := 0 }

/-- Store holding just `wTermRecord`. -/
def wTermState : ManagerState := { records := [wTermRecord], processedEventIds := [] }

/-- A late ringing event arriving after completion. -/
def wLateEvent : VoiceCallEvent :=
  { id := "evt-late", type := "call.ringing", callId := some "call-7",
    providerCallId := some "pid-7", direction := none, fromNum := none,
    toNum := none, timestamp := 9 }

/-- Concrete terminal-state run: the late ringing event does not change
the completed status. -/
theorem terminal_status_preserved_witness :
    ∃ r', getCall (processEvent wConfig "f7" wTermState wLateEvent).1 "call-7" =
      some r' ∧ r'.status = CallStatus.completed :=
  terminal_status_preserved wConfig "f7" wTermState wLateEvent "call-7" wTermRecord
    (by decide) (by decide) (Or.inl rfl)

/-- An inbound ringing event carrying a callId unknown to the store. -/
def wUnknownEvent : VoiceCallEvent :=
  { id := "evt-9", type := "call.ringing", callId := some "ghost",
    providerCallId := some "pid-9", direction := some .inbound,
    fromNum := some "+15559999999", toNum := some "+15550000000", timestamp := 3 }

/-- Concrete unknown-callId run: behaviour equals the no-callId event. -/
theorem processEvent_unknown_callId_falls_through_witness :
    processEvent wConfig "f9" wEmpty wUnknownEvent =
      processEvent wConfig "f9" wEmpty { wUnknownEvent with callId := none } :=
  processEvent_unknown_callId_falls_through wConfig "f9" wEmpty wUnknownEvent "ghost"
    rfl (by decide) rfl rfl

end VibeBot

namespace LineQuickReplies

/-- A LINE message action, embedded from the object literal built in
`src/line/quick-replies.ts`. -/
structure MessageAction where
  type : String
  label : String
  text : String
  deriving DecidableEq, Repr

/-- A LINE quick-reply item. -/
structure QuickReplyItem where
  type : String
  action : MessageAction
  deriving DecidableEq, Repr

/-- A LINE quick reply: a list of items. -/
structure QuickReply where
  items : List QuickReplyItem
  deriving DecidableEq, Repr

/-- Embedded from `createQuickReplyItems` in `src/line/quick-replies.ts`:
`labels.slice(0, 13)` is `List.take 13`, `label.slice(0, 20)` is
`String.take 20`. -/
def createQuickReplyItems (labels : List String) : QuickReply :=
  { items := (labels.take 13).map (fun label =>
      { type := "action"
        action := { type := "message", label := label.take 20, text := label } }) }

/-- Claim C10: `createQuickReplyItems` produces `min (length labels) 13`
items; each produced item is a message action whose label is the first 20
characters of the corresponding input label and whose text is the full,
untruncated label. -/
theorem createQuickReplyItems_spec (labels : List String) (i : Nat)
    (h : i < min labels.length 13) :
    (createQuickReplyItems labels).items.length = min labels.length 13 ∧
    (createQuickReplyItems labels).items[i]? = labels[i]?.map (fun label =>
      { type := "action"
        action := { type := "message", label := label.take 20, text := label } }) := by
  constructor
  · simp [createQuickReplyItems, List.length_take, Nat.min_comm]
  · have hi : i < 13 := lt_of_lt_of_le h (min_le_right _ _)
    simp [createQuickReplyItems, List.getElem?_map, List.getElem?_take, hi]

/-- Concrete instantiation of the quick-reply claim, with one label long
enough to exercise the 20-character truncation. -/
theorem createQuickReplyItems_spec_witness :
    (createQuickReplyItems ["ok", "abcdefghijklmnopqrstuvwxyz"]).items.length =
      min 2 13 ∧
    (createQuickReplyItems ["ok", "abcdefghijklmnopqrstuvwxyz"]).items[1]? =
      (["ok", "abcdefghijklmnopqrstuvwxyz"] : List String)[1]?.map (fun label =>
        { type := "action"
          action := { type := "message", label := label.take 20, text := label } }) :=
  createQuickReplyItems_spec ["ok", "abcdefghijklmnopqrstuvwxyz"] 1 (by decide)

end LineQuickReplies
